import Mathlib

/-!
Shallow embedding of the zk-calculator arithmetic chips
(`src/chips/arithmetic.rs`, `src/chips/mul.rs`, `src/chips/sub.rs`).

The halo2 backend is modelled explicitly: a constraint system accumulates
selectors, gate polynomials and equality-enabled columns during `configure`;
synthesis is state passing over a record of regions, advice assignments,
copy constraints, enabled selectors and instance constraints, with each
fallible step returning `Except` so that the Rust `?` operator's
early-return behaviour is preserved exactly.
-/

namespace ZkCalc

/-- Identifiers for the columns wired into the arithmetic chip: the two
shared advice columns `a` and `b` and the instance column. -/
inductive ColId where
  | colA
  | colB
  | instCol
  deriving DecidableEq

/-- A cell coordinate: region index, column, and row offset inside the
region.  The layouter guarantees regions never alias rows, so this triple
identifies a physical cell. -/
structure Cell where
  region : Nat
  col : ColId
  offset : Nat
  deriving DecidableEq

/-- halo2's `Value<F>`: a possibly-unknown field value.  `Value::known x`
is `some x`; the unknown value is `none`. -/
abbrev Value (F : Type) := Option F

/-- The known value constructor of `Value`. -/
def Value.known {F : Type} (x : F) : Value F := some x

/-- Multiplication of `Value`s, as used in `MulChip::mul`
(`a.0.value().copied() * b.0.value()`). -/
def Value.mul {F : Type} [Mul F] : Value F → Value F → Value F
  | some x, some y => some (x * y)
  | _, _ => none

/-- Subtraction of `Value`s, as used in `SubChip::sub`. -/
def Value.sub {F : Type} [Sub F] : Value F → Value F → Value F
  | some x, some y => some (x - y)
  | _, _ => none

/-- Addition of `Value`s, for the addition chip. -/
def Value.add {F : Type} [Add F] : Value F → Value F → Value F
  | some x, some y => some (x + y)
  | _, _ => none

/-- halo2's `AssignedCell<F, F>`: an assigned cell together with the value
it was assigned. -/
structure AssignedCell (F : Type) where
  cell : Cell
  val : Value F

/-- The `Number` wrapper from `arithmetic.rs`:
`pub struct Number<F: FieldExt>(pub AssignedCell<F, F>);`. -/
structure Number (F : Type) where
  cell0 : AssignedCell F

/-- Rotations used by the gates (`Rotation::cur()` and `Rotation::next()`). -/
def Rotation.cur : Int := 0

/-- The next-row rotation. -/
def Rotation.next : Int := 1

/-- Gate polynomial expressions, as produced by `meta.query_advice` /
`meta.query_selector` and combined with ring operations inside
`meta.create_gate`. -/
inductive Expression (F : Type) where
  | advice (col : ColId) (rot : Int)
  | sel (s : Nat)
  | add (e₁ e₂ : Expression F)
  | sub (e₁ e₂ : Expression F)
  | mul (e₁ e₂ : Expression F)

/-- Evaluate a gate expression given per-row selector values `sv` and
advice values `av` (column, rotation relative to the gate's row). -/
def Expression.eval {F : Type} [CommRing F] (sv : Nat → F) (av : ColId → Int → F) :
    Expression F → F
  | .advice c r => av c r
  | .sel s => sv s
  | .add e₁ e₂ => e₁.eval sv av + e₂.eval sv av
  | .sub e₁ e₂ => e₁.eval sv av - e₂.eval sv av
  | .mul e₁ e₂ => e₁.eval sv av * e₂.eval sv av

/-- A gate registered with `meta.create_gate`: a list of polynomial
constraints, each required to vanish on selector-enabled rows. -/
structure Gate (F : Type) where
  polys : List (Expression F)

/-- The part of halo2's `ConstraintSystem` the chips interact with:
the selector allocator, the registered gates, and the set of columns on
which equality (the copy-constraint permutation) has been enabled. -/
structure ConstraintSystem (F : Type) where
  numSelectors : Nat
  gates : List (Gate F)
  eqEnabled : List ColId

/-- `meta.selector()`: allocate a fresh selector. -/
def ConstraintSystem.selector {F : Type} (cs : ConstraintSystem F) :
    Nat × ConstraintSystem F :=
  (cs.numSelectors, { cs with numSelectors := cs.numSelectors + 1 })

/-- `meta.enable_equality(col)`. -/
def ConstraintSystem.enableEquality {F : Type} (cs : ConstraintSystem F)
    (c : ColId) : ConstraintSystem F :=
  { cs with eqEnabled := c :: cs.eqEnabled }

/-- `meta.create_gate(...)`: register a gate. -/
def ConstraintSystem.createGate {F : Type} (cs : ConstraintSystem F)
    (g : Gate F) : ConstraintSystem F :=
  { cs with gates := cs.gates ++ [g] }

/-- Synthesis errors.  The spec's single user-facing error category:
assignment/constraint-registration failures (occupied cell, equality
asserted on a column that was never equality-enabled). -/
inductive Error where
  | notEnabledEq (c : ColId)
  | occupied (c : Cell)
  deriving DecidableEq

/-- Synthesis state threaded through every `Layouter` call: the next fresh
region index (regions are allocated in call order), the advice
assignments, the copy (equality) constraints, the selector enablings
(selector, region, offset), and the instance equality constraints
(cell, instance row). -/
structure SynthState (F : Type) where
  nextRegion : Nat
  assignments : List (Cell × Value F)
  copies : List (Cell × Cell)
  enabledSel : List (Nat × Nat × Nat)
  instanceConstraints : List (Cell × Nat)

/-- Look up the value assigned to a cell, if any. -/
def lookupA {F : Type} (l : List (Cell × Value F)) (c : Cell) : Option (Value F) :=
  (l.find? (fun p => p.1 == c)).map (fun p => p.2)

/-- Look up the value assigned to a cell in the synthesis state. -/
def SynthState.lookup {F : Type} (s : SynthState F) (c : Cell) : Option (Value F) :=
  lookupA s.assignments c

/-- `region.assign_advice`: assign a value to a fresh cell of the region;
fails if the cell is already occupied. -/
def SynthState.assignAdvice {F : Type} (s : SynthState F) (region : Nat)
    (col : ColId) (offset : Nat) (v : Value F) :
    Except Error (AssignedCell F × SynthState F) :=
  let c : Cell := ⟨region, col, offset⟩
  match s.lookup c with
  | some _ => .error (.occupied c)
  | none => .ok (⟨c, v⟩, { s with assignments := (c, v) :: s.assignments })

/-- `assigned_cell.copy_advice`: assign the cell's value at the target and
record an equality constraint between the source cell and the new cell.
Fails if either column is not equality-enabled. -/
def SynthState.copyAdvice {F : Type} (cs : ConstraintSystem F)
    (n : AssignedCell F) (s : SynthState F) (col : ColId) (region : Nat)
    (offset : Nat) : Except Error (AssignedCell F × SynthState F) :=
  if n.cell.col ∈ cs.eqEnabled then
    if col ∈ cs.eqEnabled then
      match s.assignAdvice region col offset n.val with
      | .error e => .error e
      | .ok (ac, s₁) => .ok (ac, { s₁ with copies := (n.cell, ac.cell) :: s₁.copies })
    else .error (.notEnabledEq col)
  else .error (.notEnabledEq n.cell.col)

/-- `selector.enable(region, offset)`. -/
def SynthState.enableSel {F : Type} (s : SynthState F) (sel : Nat)
    (region : Nat) (offset : Nat) : Except Error (SynthState F) :=
  .ok { s with enabledSel := (sel, region, offset) :: s.enabledSel }

/-- `layouter.constrain_instance(cell, instance, row)`: record an equality
constraint between an assigned cell and a row of the instance column.
Both columns must be equality-enabled. -/
def SynthState.constrainInstance {F : Type} (cs : ConstraintSystem F)
    (s : SynthState F) (c : Cell) (instC : ColId) (row : Nat) :
    Except Error (SynthState F) :=
  if instC ∈ cs.eqEnabled then
    if c.col ∈ cs.eqEnabled then
      .ok { s with instanceConstraints := (c, row) :: s.instanceConstraints }
    else .error (.notEnabledEq c.col)
  else .error (.notEnabledEq instC)

/-- `MulConfig` from `mul.rs`. -/
structure MulConfig where
  a : ColId
  b : ColId
  sel_mul : Nat

/-- The polynomial returned by the `create_gate` closure in
`MulChip::configure`: `sel_mul * (lhs * rhs - out)` where `lhs` is column
`a` at the current row, `rhs` is column `b` at the current row and `out`
is column `a` at the next row. -/
def MulChip.gatePoly {F : Type} (a b : ColId) (sel_mul : Nat) : Expression F :=
  .mul (.sel sel_mul)
    (.sub (.mul (.advice a Rotation.cur) (.advice b Rotation.cur))
      (.advice a Rotation.next))

/-- `MulChip::configure`: enable equality on both columns, allocate a
fresh selector, register the multiplication gate. -/
def MulChip.configure {F : Type} (meta : ConstraintSystem F) (a b : ColId) :
    MulConfig × ConstraintSystem F :=
  let meta := meta.enableEquality a
  let meta := meta.enableEquality b
  let p := meta.selector
  let sel_mul := p.1
  let meta := p.2
  let meta := meta.createGate ⟨[MulChip.gatePoly a b sel_mul]⟩
  (⟨a, b, sel_mul⟩, meta)

/-- `MulChip::mul`: in a fresh region, enable the multiplication selector
at offset 0, copy the operands into columns `a` and `b` at offset 0,
compute the product of the operand values, assign it into column `a` at
offset 1 and return it as a `Number`. -/
def MulChip.mul {F : Type} [Mul F] (cs : ConstraintSystem F)
    (config : MulConfig) (a b : Number F) (s : SynthState F) :
    Except Error (Number F × SynthState F) :=
  let region := s.nextRegion
  let s : SynthState F := { s with nextRegion := region + 1 }
  match s.enableSel config.sel_mul region 0 with
  | .error e => .error e
  | .ok s =>
    match s.copyAdvice cs a.cell0 config.a region 0 with
    | .error e => .error e
    | .ok (_, s) =>
      match s.copyAdvice cs b.cell0 config.b region 0 with
      | .error e => .error e
      | .ok (_, s) =>
        let c := Value.mul a.cell0.val b.cell0.val
        match s.assignAdvice region config.a 1 c with
        | .error e => .error e
        | .ok (ac, s) => .ok (Number.mk ac, s)

/-- `SubConfig` from `sub.rs`. -/
structure SubConfig where
  a : ColId
  b : ColId
  sel_sub : Nat

/-- The polynomial returned by the `create_gate` closure in
`SubChip::configure`: `sel_sub * (lhs - rhs - out)`. -/
def SubChip.gatePoly {F : Type} (a b : ColId) (sel_sub : Nat) : Expression F :=
  .mul (.sel sel_sub)
    (.sub (.sub (.advice a Rotation.cur) (.advice b Rotation.cur))
      (.advice a Rotation.next))

/-- `SubChip::configure`. -/
def SubChip.configure {F : Type} (meta : ConstraintSystem F) (a b : ColId) :
    SubConfig × ConstraintSystem F :=
  let meta := meta.enableEquality a
  let meta := meta.enableEquality b
  let p := meta.selector
  let sel_sub := p.1
  let meta := p.2
  let meta := meta.createGate ⟨[SubChip.gatePoly a b sel_sub]⟩
  (⟨a, b, sel_sub⟩, meta)

/-- `SubChip::sub`: identical region shape to `MulChip::mul`, with the
difference of the operand values assigned at column `a`, offset 1. -/
def SubChip.sub {F : Type} [Sub F] (cs : ConstraintSystem F)
    (config : SubConfig) (a b : Number F) (s : SynthState F) :
    Except Error (Number F × SynthState F) :=
  let region := s.nextRegion
  let s : SynthState F := { s with nextRegion := region + 1 }
  match s.enableSel config.sel_sub region 0 with
  | .error e => .error e
  | .ok s =>
    match s.copyAdvice cs a.cell0 config.a region 0 with
    | .error e => .error e
    | .ok (_, s) =>
      match s.copyAdvice cs b.cell0 config.b region 0 with
      | .error e => .error e
      | .ok (_, s) =>
        let c := Value.sub a.cell0.val b.cell0.val
        match s.assignAdvice region config.a 1 c with
        | .error e => .error e
        | .ok (ac, s) => .ok (Number.mk ac, s)

/-- Modelled from the spec: `AddConfig` of the addition chip.  The file
`src/chips/add.rs` is referenced from `arithmetic.rs` but absent from the
sources; per spec section 4.1 each operation gate's config is the pair of
columns plus the operation's selector. -/
structure AddConfig where
  a : ColId
  b : ColId
  sel_add : Nat

/-- Modelled from the spec: the addition gate polynomial
`selector * ((a_cur + b_cur) - c_next)`, the spec's identity
`a + b - c = 0` (section 4.1 with `f_op = a + b`, design note in
section 9). -/
def AddChip.gatePoly {F : Type} (a b : ColId) (sel_add : Nat) : Expression F :=
  .mul (.sel sel_add)
    (.sub (.add (.advice a Rotation.cur) (.advice b Rotation.cur))
      (.advice a Rotation.next))

/-- Modelled from the spec: `AddChip::configure` (missing `add.rs`),
following the shared gate pattern of spec section 4.1: enable equality on
both columns, allocate a fresh selector, register the addition identity. -/
def AddChip.configure {F : Type} (meta : ConstraintSystem F) (a b : ColId) :
    AddConfig × ConstraintSystem F :=
  let meta := meta.enableEquality a
  let meta := meta.enableEquality b
  let p := meta.selector
  let sel_add := p.1
  let meta := p.2
  let meta := meta.createGate ⟨[AddChip.gatePoly a b sel_add]⟩
  (⟨a, b, sel_add⟩, meta)

/-- Modelled from the spec: `AddChip::add` (missing `add.rs`), following
the shared apply pattern of spec section 4.1, `f_op = a + b`. -/
def AddChip.add {F : Type} [Add F] (cs : ConstraintSystem F)
    (config : AddConfig) (a b : Number F) (s : SynthState F) :
    Except Error (Number F × SynthState F) :=
  let region := s.nextRegion
  let s : SynthState F := { s with nextRegion := region + 1 }
  match s.enableSel config.sel_add region 0 with
  | .error e => .error e
  | .ok s =>
    match s.copyAdvice cs a.cell0 config.a region 0 with
    | .error e => .error e
    | .ok (_, s) =>
      match s.copyAdvice cs b.cell0 config.b region 0 with
      | .error e => .error e
      | .ok (_, s) =>
        let c := Value.add a.cell0.val b.cell0.val
        match s.assignAdvice region config.a 1 c with
        | .error e => .error e
        | .ok (ac, s) => .ok (Number.mk ac, s)

/-- `ArithmeticConfig` from `arithmetic.rs`. -/
structure ArithmeticConfig where
  a : ColId
  b : ColId
  instCol : ColId
  add_config : AddConfig
  sub_config : SubConfig
  mul_config : MulConfig

/-- `ArithmeticChip::configure`: configure the addition, subtraction and
multiplication chips against the same two advice columns, then enable
equality on the instance column. -/
def ArithmeticChip.configure {F : Type} (meta : ConstraintSystem F)
    (a b ic : ColId) : ArithmeticConfig × ConstraintSystem F :=
  let p₁ := AddChip.configure (F := F) meta a b
  let p₂ := SubChip.configure p₁.2 a b
  let p₃ := MulChip.configure p₂.2 a b
  let meta := p₃.2.enableEquality ic
  (⟨a, b, ic, p₁.1, p₂.1, p₃.1⟩, meta)

/-- `ArithmeticChip::load_private`: assign the given value into column
`a` at offset 0 of a fresh single-cell region, with no selector and no
copy constraint, and return it as a `Number`. -/
def ArithmeticChip.load_private {F : Type} (config : ArithmeticConfig)
    (value : Value F) (s : SynthState F) :
    Except Error (Number F × SynthState F) :=
  let region := s.nextRegion
  let s : SynthState F := { s with nextRegion := region + 1 }
  match s.assignAdvice region config.a 0 value with
  | .error e => .error e
  | .ok (ac, s) => .ok (Number.mk ac, s)

/-- `ArithmeticChip::expose_public`: constrain `num`'s cell to equal the
given row of the instance column. -/
def ArithmeticChip.expose_public {F : Type} (cs : ConstraintSystem F)
    (config : ArithmeticConfig) (num : Number F) (row : Nat)
    (s : SynthState F) : Except Error (Unit × SynthState F) :=
  match s.constrainInstance cs num.cell0.cell config.instCol row with
  | .error e => .error e
  | .ok s => .ok ((), s)

/-- `ArithmeticChip`'s `AddInstructions` impl: construct the add chip from
the stored config and delegate. -/
def ArithmeticChip.add {F : Type} [Add F] (cs : ConstraintSystem F)
    (config : ArithmeticConfig) (a b : Number F) (s : SynthState F) :
    Except Error (Number F × SynthState F) :=
  AddChip.add cs config.add_config a b s

/-- `ArithmeticChip`'s `SubInstructions` impl. -/
def ArithmeticChip.sub {F : Type} [Sub F] (cs : ConstraintSystem F)
    (config : ArithmeticConfig) (a b : Number F) (s : SynthState F) :
    Except Error (Number F × SynthState F) :=
  SubChip.sub cs config.sub_config a b s

/-- `ArithmeticChip`'s `MulInstructions` impl. -/
def ArithmeticChip.mul {F : Type} [Mul F] (cs : ConstraintSystem F)
    (config : ArithmeticConfig) (a b : Number F) (s : SynthState F) :
    Except Error (Number F × SynthState F) :=
  MulChip.mul cs config.mul_config a b s

/-- The empty constraint system handed to `configure`. -/
def initCS (F : Type) : ConstraintSystem F := ⟨0, [], []⟩

/-- The empty synthesis state at the start of `synthesize`. -/
def initState (F : Type) : SynthState F := ⟨0, [], [], [], []⟩

/-- The arithmetic chip configuration produced by a single `configure`
call on the standard column wiring. -/
def arithConfig (F : Type) : ArithmeticConfig :=
  (ArithmeticChip.configure (initCS F) .colA .colB .instCol).1

/-- The constraint system after that `configure` call. -/
def arithCS (F : Type) : ConstraintSystem F :=
  (ArithmeticChip.configure (initCS F) .colA .colB .instCol).2

/-- Extract the held value of the `Number` returned by a synthesis call,
when the call succeeded. -/
def resVal {F : Type} : Except Error (Number F × SynthState F) → Option (Value F)
  | .ok p => some p.1.cell0.val
  | .error _ => none

/-- The call sequence `mul(load_private x, load_private y)` on the
configured chip, from the empty synthesis state. -/
def runMulPair {F : Type} [Mul F] (x y : F) :
    Except Error (Number F × SynthState F) := do
  let (na, s) ← ArithmeticChip.load_private (arithConfig F) (Value.known x) (initState F)
  let (nb, s) ← ArithmeticChip.load_private (arithConfig F) (Value.known y) s
  ArithmeticChip.mul (arithCS F) (arithConfig F) na nb s

/-- The call sequence `sub(load_private x, load_private y)`. -/
def runSubPair {F : Type} [Sub F] (x y : F) :
    Except Error (Number F × SynthState F) := do
  let (na, s) ← ArithmeticChip.load_private (arithConfig F) (Value.known x) (initState F)
  let (nb, s) ← ArithmeticChip.load_private (arithConfig F) (Value.known y) s
  ArithmeticChip.sub (arithCS F) (arithConfig F) na nb s

/-- The call sequence `add(load_private x, load_private y)`. -/
def runAddPair {F : Type} [Add F] (x y : F) :
    Except Error (Number F × SynthState F) := do
  let (na, s) ← ArithmeticChip.load_private (arithConfig F) (Value.known x) (initState F)
  let (nb, s) ← ArithmeticChip.load_private (arithConfig F) (Value.known y) s
  ArithmeticChip.add (arithCS F) (arithConfig F) na nb s

/-- The composed call sequence of the spec's composition property: load
four private values and apply `add`, then `mul`, then `sub` in sequence. -/
def runAddMulSub {F : Type} [Add F] [Sub F] [Mul F] (x y z w : F) :
    Except Error (Number F × SynthState F) := do
  let (nx, s) ← ArithmeticChip.load_private (arithConfig F) (Value.known x) (initState F)
  let (ny, s) ← ArithmeticChip.load_private (arithConfig F) (Value.known y) s
  let (nz, s) ← ArithmeticChip.load_private (arithConfig F) (Value.known z) s
  let (nw, s) ← ArithmeticChip.load_private (arithConfig F) (Value.known w) s
  let (n₁, s) ← ArithmeticChip.add (arithCS F) (arithConfig F) nx ny s
  let (n₂, s) ← ArithmeticChip.mul (arithCS F) (arithConfig F) n₁ nz s
  ArithmeticChip.sub (arithCS F) (arithConfig F) n₂ nw s

/-- A synthesis state is well formed when every assigned cell lives in an
already-allocated region; the layouter maintains this by allocating
regions in call order. -/
def WF {F : Type} (s : SynthState F) : Prop :=
  ∀ p ∈ s.assignments, p.1.region < s.nextRegion

/-- An instance-column assignment `inst` satisfies the circuit's instance
constraints when each constrained cell's assigned value is the known
value at the constrained instance row. -/
def InstSat {F : Type} (s : SynthState F) (inst : Nat → F) : Prop :=
  ∀ p ∈ s.instanceConstraints, s.lookup p.1 = some (Value.known (inst p.2))

/-- Concrete example handle over `ZMod 5`: the value 3 loaded in region 0. -/
def exA : Number (ZMod 5) := Number.mk ⟨⟨0, ColId.colA, 0⟩, Value.known 3⟩

/-- Concrete example handle over `ZMod 5`: the value 4 loaded in region 1. -/
def exB : Number (ZMod 5) := Number.mk ⟨⟨1, ColId.colA, 0⟩, Value.known 4⟩

/-- Concrete example state after the two `load_private` calls that
produced `exA` and `exB`. -/
def exS : SynthState (ZMod 5) :=
  ⟨2, [(⟨1, ColId.colA, 0⟩, Value.known 4), (⟨0, ColId.colA, 0⟩, Value.known 3)],
    [], [], []⟩

/-- The `Number` produced by the first `mul exA exB` call on `exS`. -/
def exN₁ : Number (ZMod 5) :=
  Number.mk ⟨⟨2, ColId.colA, 1⟩, Value.mul (Value.known 3) (Value.known 4)⟩

/-- The state after the first `mul exA exB` call on `exS`. -/
def exS₁ : SynthState (ZMod 5) :=
  ⟨3,
    [(⟨2, ColId.colA, 1⟩, Value.mul (Value.known 3) (Value.known 4)),
      (⟨2, ColId.colB, 0⟩, Value.known 4), (⟨2, ColId.colA, 0⟩, Value.known 3),
      (⟨1, ColId.colA, 0⟩, Value.known 4), (⟨0, ColId.colA, 0⟩, Value.known 3)],
    [(⟨1, ColId.colA, 0⟩, ⟨2, ColId.colB, 0⟩),
      (⟨0, ColId.colA, 0⟩, ⟨2, ColId.colA, 0⟩)],
    [(2, 2, 0)], []⟩

/-- The `Number` produced by the second `mul exA exB` call, on `exS₁`. -/
def exN₂ : Number (ZMod 5) :=
  Number.mk ⟨⟨3, ColId.colA, 1⟩, Value.mul (Value.known 3) (Value.known 4)⟩

/-- The state after the second `mul exA exB` call. -/
def exS₂ : SynthState (ZMod 5) :=
  ⟨4,
    [(⟨3, ColId.colA, 1⟩, Value.mul (Value.known 3) (Value.known 4)),
      (⟨3, ColId.colB, 0⟩, Value.known 4), (⟨3, ColId.colA, 0⟩, Value.known 3),
      (⟨2, ColId.colA, 1⟩, Value.mul (Value.known 3) (Value.known 4)),
      (⟨2, ColId.colB, 0⟩, Value.known 4), (⟨2, ColId.colA, 0⟩, Value.known 3),
      (⟨1, ColId.colA, 0⟩, Value.known 4), (⟨0, ColId.colA, 0⟩, Value.known 3)],
    [(⟨1, ColId.colA, 0⟩, ⟨3, ColId.colB, 0⟩),
      (⟨0, ColId.colA, 0⟩, ⟨3, ColId.colA, 0⟩),
      (⟨1, ColId.colA, 0⟩, ⟨2, ColId.colB, 0⟩),
      (⟨0, ColId.colA, 0⟩, ⟨2, ColId.colA, 0⟩)],
    [(2, 3, 0), (2, 2, 0)], []⟩

theorem lookupA_fresh {F : Type} (l : List (Cell × Value F)) (n : Nat)
    (h : ∀ p ∈ l, p.1.region < n) (c : Cell) (hc : n ≤ c.region) :
    lookupA l c = none := by
  have hf : l.find? (fun p => p.1 == c) = none := by
    rw [List.find?_eq_none]
    intro p hp
    have h2 := h p hp
    simp only [beq_iff_eq]
    intro hpc
    rw [hpc] at h2
    omega
  simp [lookupA, hf]

theorem lookupA_cons_ne {F : Type} (p : Cell × Value F)
    (l : List (Cell × Value F)) (c : Cell) (h : p.1 ≠ c) :
    lookupA (p :: l) c = lookupA l c := by
  simp [lookupA, List.find?_cons, beq_iff_eq, h]

theorem enableSel_ok {F : Type} (s : SynthState F) (sel region offset : Nat) :
    s.enableSel sel region offset =
      .ok { s with enabledSel := (sel, region, offset) :: s.enabledSel } := rfl

theorem assignAdvice_ok {F : Type} (s : SynthState F) (region : Nat)
    (col : ColId) (offset : Nat) (v : Value F)
    (hfresh : s.lookup ⟨region, col, offset⟩ = none) :
    s.assignAdvice region col offset v =
      .ok (⟨⟨region, col, offset⟩, v⟩,
        { s with assignments := (⟨region, col, offset⟩, v) :: s.assignments }) := by
  simp only [SynthState.assignAdvice, hfresh]

theorem copyAdvice_ok {F : Type} (cs : ConstraintSystem F)
    (n : AssignedCell F) (s : SynthState F) (col : ColId) (region offset : Nat)
    (hn : n.cell.col ∈ cs.eqEnabled) (hc : col ∈ cs.eqEnabled)
    (hfresh : s.lookup ⟨region, col, offset⟩ = none) :
    s.copyAdvice cs n col region offset =
      .ok (⟨⟨region, col, offset⟩, n.val⟩,
        { s with
            assignments := (⟨region, col, offset⟩, n.val) :: s.assignments,
            copies := (n.cell, ⟨region, col, offset⟩) :: s.copies }) := by
  simp only [SynthState.copyAdvice, if_pos hn, if_pos hc,
    assignAdvice_ok s region col offset n.val hfresh]

theorem mul_shape {F : Type} [Mul F] (cs : ConstraintSystem F)
    (cfg : MulConfig) (a b : Number F) (s : SynthState F) (hwf : WF s)
    (hca : cfg.a ∈ cs.eqEnabled) (hcb : cfg.b ∈ cs.eqEnabled)
    (hab : cfg.a ≠ cfg.b)
    (ha : a.cell0.cell.col ∈ cs.eqEnabled) (hb : b.cell0.cell.col ∈ cs.eqEnabled) :
    MulChip.mul cs cfg a b s =
      .ok (Number.mk ⟨⟨s.nextRegion, cfg.a, 1⟩, Value.mul a.cell0.val b.cell0.val⟩,
        { nextRegion := s.nextRegion + 1,
          assignments :=
            (⟨s.nextRegion, cfg.a, 1⟩, Value.mul a.cell0.val b.cell0.val) ::
              (⟨s.nextRegion, cfg.b, 0⟩, b.cell0.val) ::
                (⟨s.nextRegion, cfg.a, 0⟩, a.cell0.val) :: s.assignments,
          copies :=
            (b.cell0.cell, ⟨s.nextRegion, cfg.b, 0⟩) ::
              (a.cell0.cell, ⟨s.nextRegion, cfg.a, 0⟩) :: s.copies,
          enabledSel := (cfg.sel_mul, s.nextRegion, 0) :: s.enabledSel,
          instanceConstraints := s.instanceConstraints }) := by
  have h1 : lookupA s.assignments (⟨s.nextRegion, cfg.a, 0⟩ : Cell) = none :=
    lookupA_fresh s.assignments s.nextRegion hwf _ (le_refl _)
  have h2 : lookupA ((⟨s.nextRegion, cfg.a, 0⟩, a.cell0.val) :: s.assignments)
      (⟨s.nextRegion, cfg.b, 0⟩ : Cell) = none := by
    rw [lookupA_cons_ne _ _ _ (fun h => hab (congrArg Cell.col h))]
    exact lookupA_fresh s.assignments s.nextRegion hwf _ (le_refl _)
  have h3 : lookupA ((⟨s.nextRegion, cfg.b, 0⟩, b.cell0.val) ::
        (⟨s.nextRegion, cfg.a, 0⟩, a.cell0.val) :: s.assignments)
      (⟨s.nextRegion, cfg.a, 1⟩ : Cell) = none := by
    rw [lookupA_cons_ne _ _ _ (fun h => by simpa using congrArg Cell.offset h),
      lookupA_cons_ne _ _ _ (fun h => by simpa using congrArg Cell.offset h)]
    exact lookupA_fresh s.assignments s.nextRegion hwf _ (le_refl _)
  simp only [MulChip.mul, enableSel_ok, SynthState.copyAdvice,
    SynthState.assignAdvice, SynthState.lookup, if_pos ha, if_pos hca,
    if_pos hb, if_pos hcb, h1, h2, h3]

theorem sub_shape {F : Type} [Sub F] (cs : ConstraintSystem F)
    (cfg : SubConfig) (a b : Number F) (s : SynthState F) (hwf : WF s)
    (hca : cfg.a ∈ cs.eqEnabled) (hcb : cfg.b ∈ cs.eqEnabled)
    (hab : cfg.a ≠ cfg.b)
    (ha : a.cell0.cell.col ∈ cs.eqEnabled) (hb : b.cell0.cell.col ∈ cs.eqEnabled) :
    SubChip.sub cs cfg a b s =
      .ok (Number.mk ⟨⟨s.nextRegion, cfg.a, 1⟩, Value.sub a.cell0.val b.cell0.val⟩,
        { nextRegion := s.nextRegion + 1,
          assignments :=
            (⟨s.nextRegion, cfg.a, 1⟩, Value.sub a.cell0.val b.cell0.val) ::
              (⟨s.nextRegion, cfg.b, 0⟩, b.cell0.val) ::
                (⟨s.nextRegion, cfg.a, 0⟩, a.cell0.val) :: s.assignments,
          copies :=
            (b.cell0.cell, ⟨s.nextRegion, cfg.b, 0⟩) ::
              (a.cell0.cell, ⟨s.nextRegion, cfg.a, 0⟩) :: s.copies,
          enabledSel := (cfg.sel_sub, s.nextRegion, 0) :: s.enabledSel,
          instanceConstraints := s.instanceConstraints }) := by
  have h1 : lookupA s.assignments (⟨s.nextRegion, cfg.a, 0⟩ : Cell) = none :=
    lookupA_fresh s.assignments s.nextRegion hwf _ (le_refl _)
  have h2 : lookupA ((⟨s.nextRegion, cfg.a, 0⟩, a.cell0.val) :: s.assignments)
      (⟨s.nextRegion, cfg.b, 0⟩ : Cell) = none := by
    rw [lookupA_cons_ne _ _ _ (fun h => hab (congrArg Cell.col h))]
    exact lookupA_fresh s.assignments s.nextRegion hwf _ (le_refl _)
  have h3 : lookupA ((⟨s.nextRegion, cfg.b, 0⟩, b.cell0.val) ::
        (⟨s.nextRegion, cfg.a, 0⟩, a.cell0.val) :: s.assignments)
      (⟨s.nextRegion, cfg.a, 1⟩ : Cell) = none := by
    rw [lookupA_cons_ne _ _ _ (fun h => by simpa using congrArg Cell.offset h),
      lookupA_cons_ne _ _ _ (fun h => by simpa using congrArg Cell.offset h)]
    exact lookupA_fresh s.assignments s.nextRegion hwf _ (le_refl _)
  simp only [SubChip.sub, enableSel_ok, SynthState.copyAdvice,
    SynthState.assignAdvice, SynthState.lookup, if_pos ha, if_pos hca,
    if_pos hb, if_pos hcb, h1, h2, h3]

theorem lookupA_cons_lt {F : Type} (p : Cell × Value F)
    (l : List (Cell × Value F)) (c : Cell) (h : c.region < p.1.region) :
    lookupA (p :: l) c = lookupA l c :=
  lookupA_cons_ne p l c (fun he => by rw [he] at h; omega)

/-- C1: for every pair of field values `x` and `y`, `mul` on the handles
returned by `load_private x` and `load_private y` returns a `Number`
holding `x * y` in the field (so modulo the field's characteristic, as the
concrete `ZMod 5` instance `4 * 3 = 2` shows), and `MulChip::configure`
registers exactly one gate whose polynomial evaluates to
`selector * (a_cur * b_cur - c_next)`. -/
theorem mul_correct :
    (∀ (F : Type) [Field F] (x y : F),
      resVal (runMulPair x y) = some (Value.known (x * y))) ∧
    resVal (runMulPair (4 : ZMod 5) 3) = some (Value.known 2) ∧
    ∀ (F : Type) [Field F] (cs : ConstraintSystem F) (a b : ColId),
      (MulChip.configure cs a b).2.gates =
        cs.gates ++ [⟨[MulChip.gatePoly a b (MulChip.configure cs a b).1.sel_mul]⟩] ∧
      ∀ (sv : Nat → F) (av : ColId → Int → F),
        (MulChip.gatePoly a b (MulChip.configure cs a b).1.sel_mul).eval sv av =
          sv (MulChip.configure cs a b).1.sel_mul * (av a 0 * av b 0 - av a 1) :=
  ⟨fun _ _ _ _ => rfl, by decide, fun _ _ _ _ _ => ⟨rfl, fun _ _ => rfl⟩⟩

/-- C2: `SubChip::configure` registers exactly one gate whose polynomial
evaluates to `selector * (a_cur - b_cur - c_next)` (the `c = a - b` sign
convention), and for every pair of field values `x` and `y`, `sub` on
loaded handles returns a `Number` holding `x - y` in the field (modulo
the characteristic: over `ZMod 5`, `1 - 3 = 3`). -/
theorem sub_correct :
    (∀ (F : Type) [Field F] (cs : ConstraintSystem F) (a b : ColId),
      (SubChip.configure cs a b).2.gates =
        cs.gates ++ [⟨[SubChip.gatePoly a b (SubChip.configure cs a b).1.sel_sub]⟩] ∧
      ∀ (sv : Nat → F) (av : ColId → Int → F),
        (SubChip.gatePoly a b (SubChip.configure cs a b).1.sel_sub).eval sv av =
          sv (SubChip.configure cs a b).1.sel_sub * (av a 0 - av b 0 - av a 1)) ∧
    (∀ (F : Type) [Field F] (x y : F),
      resVal (runSubPair x y) = some (Value.known (x - y))) ∧
    resVal (runSubPair (1 : ZMod 5) 3) = some (Value.known 3) :=
  ⟨fun _ _ _ _ _ => ⟨rfl, fun _ _ => rfl⟩, fun _ _ _ _ => rfl, by decide⟩

/-- C3: for every pair of field values `x` and `y`, `add` on loaded
handles returns a `Number` holding `x + y` computed in the field — in
particular at the modulus boundary, `(p-1) + 2 = 1` over `ZMod 5` — and
the addition gate's polynomial evaluates to
`selector * (a_cur + b_cur - c_next)`, i.e. the identity `a + b - c = 0`.
The addition chip itself is modelled from the spec, `add.rs` being absent
from the sources. -/
theorem add_correct :
    (∀ (F : Type) [Field F] (x y : F),
      resVal (runAddPair x y) = some (Value.known (x + y))) ∧
    resVal (runAddPair (4 : ZMod 5) 2) = some (Value.known 1) ∧
    ∀ (F : Type) [Field F] (cs : ConstraintSystem F) (a b : ColId),
      (AddChip.configure cs a b).2.gates =
        cs.gates ++ [⟨[AddChip.gatePoly a b (AddChip.configure cs a b).1.sel_add]⟩] ∧
      ∀ (sv : Nat → F) (av : ColId → Int → F),
        (AddChip.gatePoly a b (AddChip.configure cs a b).1.sel_add).eval sv av =
          sv (AddChip.configure cs a b).1.sel_add * (av a 0 + av b 0 - av a 1) :=
  ⟨fun _ _ _ _ => rfl, by decide, fun _ _ _ _ _ => ⟨rfl, fun _ _ => rfl⟩⟩

theorem arithCS_eqEnabled (F : Type) :
    (arithCS F).eqEnabled =
      [ColId.instCol, ColId.colB, ColId.colA, ColId.colB, ColId.colA,
        ColId.colB, ColId.colA] := rfl

theorem colA_mem_arithCS (F : Type) : ColId.colA ∈ (arithCS F).eqEnabled := by
  rw [arithCS_eqEnabled]
  decide

theorem colB_mem_arithCS (F : Type) : ColId.colB ∈ (arithCS F).eqEnabled := by
  rw [arithCS_eqEnabled]
  decide

theorem instCol_mem_arithCS (F : Type) : ColId.instCol ∈ (arithCS F).eqEnabled := by
  rw [arithCS_eqEnabled]
  decide

theorem colA_ne_colB : ColId.colA ≠ ColId.colB := by decide

theorem arithConfig_instCol (F : Type) :
    (arithConfig F).instCol = ColId.instCol := rfl

/-- C5: each operation apply call (shown for `mul` and `sub` on the
configured chip) allocates a fresh region, enables that operation's
selector at region row 0, copies operand `a` into column a row 0 and
operand `b` into column b row 0 — each copy recording an equality
constraint back to the operand's original cell — assigns the operation's
result into column a row 1, and returns a new `Number` bound to that
row-1 cell. -/
theorem apply_region_shape {F : Type} [Mul F] [Sub F]
    (a b : Number F) (s : SynthState F) (hwf : WF s)
    (ha : a.cell0.cell.col ∈ (arithCS F).eqEnabled)
    (hb : b.cell0.cell.col ∈ (arithCS F).eqEnabled) :
    ArithmeticChip.mul (arithCS F) (arithConfig F) a b s =
      .ok (Number.mk ⟨⟨s.nextRegion, ColId.colA, 1⟩, Value.mul a.cell0.val b.cell0.val⟩,
        { nextRegion := s.nextRegion + 1,
          assignments :=
            (⟨s.nextRegion, ColId.colA, 1⟩, Value.mul a.cell0.val b.cell0.val) ::
              (⟨s.nextRegion, ColId.colB, 0⟩, b.cell0.val) ::
                (⟨s.nextRegion, ColId.colA, 0⟩, a.cell0.val) :: s.assignments,
          copies :=
            (b.cell0.cell, ⟨s.nextRegion, ColId.colB, 0⟩) ::
              (a.cell0.cell, ⟨s.nextRegion, ColId.colA, 0⟩) :: s.copies,
          enabledSel := ((arithConfig F).mul_config.sel_mul, s.nextRegion, 0) :: s.enabledSel,
          instanceConstraints := s.instanceConstraints }) ∧
    ArithmeticChip.sub (arithCS F) (arithConfig F) a b s =
      .ok (Number.mk ⟨⟨s.nextRegion, ColId.colA, 1⟩, Value.sub a.cell0.val b.cell0.val⟩,
        { nextRegion := s.nextRegion + 1,
          assignments :=
            (⟨s.nextRegion, ColId.colA, 1⟩, Value.sub a.cell0.val b.cell0.val) ::
              (⟨s.nextRegion, ColId.colB, 0⟩, b.cell0.val) ::
                (⟨s.nextRegion, ColId.colA, 0⟩, a.cell0.val) :: s.assignments,
          copies :=
            (b.cell0.cell, ⟨s.nextRegion, ColId.colB, 0⟩) ::
              (a.cell0.cell, ⟨s.nextRegion, ColId.colA, 0⟩) :: s.copies,
          enabledSel := ((arithConfig F).sub_config.sel_sub, s.nextRegion, 0) :: s.enabledSel,
          instanceConstraints := s.instanceConstraints }) :=
  ⟨mul_shape (arithCS F) (arithConfig F).mul_config a b s hwf
      (colA_mem_arithCS F) (colB_mem_arithCS F) colA_ne_colB ha hb,
    sub_shape (arithCS F) (arithConfig F).sub_config a b s hwf
      (colA_mem_arithCS F) (colB_mem_arithCS F) colA_ne_colB ha hb⟩

/-- Witness for C5: concrete two-operand states over `ZMod 5`. -/
theorem apply_region_shape_witness :
    WF (initState (ZMod 5)) ∧
    (ArithmeticChip.mul (arithCS (ZMod 5)) (arithConfig (ZMod 5))
        (Number.mk ⟨⟨0, ColId.colA, 0⟩, Value.known 3⟩)
        (Number.mk ⟨⟨1, ColId.colA, 0⟩, Value.known 4⟩) (initState (ZMod 5)) =
      .ok (Number.mk ⟨⟨0, ColId.colA, 1⟩, Value.mul (Value.known 3) (Value.known 4)⟩,
        { nextRegion := 1,
          assignments :=
            (⟨0, ColId.colA, 1⟩, Value.mul (Value.known 3) (Value.known 4)) ::
              (⟨0, ColId.colB, 0⟩, Value.known 4) ::
                (⟨0, ColId.colA, 0⟩, Value.known 3) :: [],
          copies :=
            (⟨1, ColId.colA, 0⟩, ⟨0, ColId.colB, 0⟩) ::
              (⟨0, ColId.colA, 0⟩, ⟨0, ColId.colA, 0⟩) :: [],
          enabledSel := ((arithConfig (ZMod 5)).mul_config.sel_mul, 0, 0) :: [],
          instanceConstraints := [] }) ∧
      ArithmeticChip.sub (arithCS (ZMod 5)) (arithConfig (ZMod 5))
        (Number.mk ⟨⟨0, ColId.colA, 0⟩, Value.known 3⟩)
        (Number.mk ⟨⟨1, ColId.colA, 0⟩, Value.known 4⟩) (initState (ZMod 5)) =
      .ok (Number.mk ⟨⟨0, ColId.colA, 1⟩, Value.sub (Value.known 3) (Value.known 4)⟩,
        { nextRegion := 1,
          assignments :=
            (⟨0, ColId.colA, 1⟩, Value.sub (Value.known 3) (Value.known 4)) ::
              (⟨0, ColId.colB, 0⟩, Value.known 4) ::
                (⟨0, ColId.colA, 0⟩, Value.known 3) :: [],
          copies :=
            (⟨1, ColId.colA, 0⟩, ⟨0, ColId.colB, 0⟩) ::
              (⟨0, ColId.colA, 0⟩, ⟨0, ColId.colA, 0⟩) :: [],
          enabledSel := ((arithConfig (ZMod 5)).sub_config.sel_sub, 0, 0) :: [],
          instanceConstraints := [] })) :=
  ⟨fun p hp => absurd hp (List.not_mem_nil p),
    apply_region_shape (Number.mk ⟨⟨0, ColId.colA, 0⟩, Value.known 3⟩)
      (Number.mk ⟨⟨1, ColId.colA, 0⟩, Value.known 4⟩) (initState (ZMod 5))
      (fun p hp => absurd hp (List.not_mem_nil p)) (by decide) (by decide)⟩

/-- C6: `load_private` on value `x` allocates a single-cell region,
assigns `x` into column a at region row 0, enables no selector, records
no copy and no instance constraint, and returns a `Number` bound to that
cell holding `x`. -/
theorem load_private_spec {F : Type} (x : F) (s : SynthState F) (hwf : WF s) :
    ArithmeticChip.load_private (arithConfig F) (Value.known x) s =
      .ok (Number.mk ⟨⟨s.nextRegion, ColId.colA, 0⟩, Value.known x⟩,
        { nextRegion := s.nextRegion + 1,
          assignments := (⟨s.nextRegion, ColId.colA, 0⟩, Value.known x) :: s.assignments,
          copies := s.copies,
          enabledSel := s.enabledSel,
          instanceConstraints := s.instanceConstraints }) := by
  have h1 : lookupA s.assignments (⟨s.nextRegion, ColId.colA, 0⟩ : Cell) = none :=
    lookupA_fresh s.assignments s.nextRegion hwf _ (le_refl _)
  simp only [ArithmeticChip.load_private, arithConfig, ArithmeticChip.configure,
    AddChip.configure, SubChip.configure, MulChip.configure,
    ConstraintSystem.enableEquality, ConstraintSystem.selector,
    ConstraintSystem.createGate, initCS, SynthState.assignAdvice,
    SynthState.lookup, h1]

/-- Witness for C6: loading `3` over `ZMod 5` from the empty state. -/
theorem load_private_spec_witness :
    WF (initState (ZMod 5)) ∧
    ArithmeticChip.load_private (arithConfig (ZMod 5)) (Value.known 3)
        (initState (ZMod 5)) =
      .ok (Number.mk ⟨⟨0, ColId.colA, 0⟩, Value.known 3⟩,
        { nextRegion := 1,
          assignments := (⟨0, ColId.colA, 0⟩, Value.known 3) :: [],
          copies := [],
          enabledSel := [],
          instanceConstraints := [] }) :=
  ⟨fun p hp => absurd hp (List.not_mem_nil p),
    load_private_spec 3 (initState (ZMod 5)) (fun p hp => absurd hp (List.not_mem_nil p))⟩

/-- C7: `expose_public num row` registers exactly one instance-equality
constraint, between `num`'s bound cell and row `row` of the instance
column; it writes no cell, records no copy and enables no selector (only
the `instanceConstraints` field changes); and any instance-column
assignment satisfying the resulting constraints reads back exactly
`num`'s value at `row`. -/
theorem expose_public_spec {F : Type} (num : Number F) (row : Nat)
    (s : SynthState F) (hn : num.cell0.cell.col ∈ (arithCS F).eqEnabled) :
    ArithmeticChip.expose_public (arithCS F) (arithConfig F) num row s =
      .ok ((), { s with
        instanceConstraints := (num.cell0.cell, row) :: s.instanceConstraints }) ∧
    ∀ (inst : Nat → F) (v : F),
      InstSat { s with
        instanceConstraints := (num.cell0.cell, row) :: s.instanceConstraints } inst →
      s.lookup num.cell0.cell = some (Value.known v) →
      inst row = v := by
  constructor
  · simp only [ArithmeticChip.expose_public, SynthState.constrainInstance,
      arithConfig_instCol, if_pos (instCol_mem_arithCS F), if_pos hn]
  · intro inst v hsat hval
    have h := hsat (num.cell0.cell, row) (List.mem_cons_self _ _)
    simp only [SynthState.lookup] at h hval
    rw [hval] at h
    simpa [Value.known] using h.symm

/-- Witness for C7: expose the loaded value `3` over `ZMod 5` at instance
row 0 and read it back through a satisfying instance assignment. -/
theorem expose_public_spec_witness :
    (ColId.colA ∈ (arithCS (ZMod 5)).eqEnabled ∧
      ArithmeticChip.expose_public (arithCS (ZMod 5)) (arithConfig (ZMod 5))
          (Number.mk ⟨⟨0, ColId.colA, 0⟩, Value.known 3⟩) 0
          ⟨1, [(⟨0, ColId.colA, 0⟩, Value.known 3)], [], [], []⟩ =
        .ok ((), ⟨1, [(⟨0, ColId.colA, 0⟩, Value.known 3)], [], [],
          [(⟨0, ColId.colA, 0⟩, 0)]⟩)) ∧
    (fun _ => (3 : ZMod 5)) 0 = 3 :=
  ⟨⟨by decide,
    (expose_public_spec (Number.mk ⟨⟨0, ColId.colA, 0⟩, Value.known 3⟩) 0
      ⟨1, [(⟨0, ColId.colA, 0⟩, Value.known 3)], [], [], []⟩ (by decide)).1⟩,
    (expose_public_spec (Number.mk ⟨⟨0, ColId.colA, 0⟩, Value.known 3⟩) 0
      ⟨1, [(⟨0, ColId.colA, 0⟩, Value.known 3)], [], [], []⟩ (by decide)).2
      (fun _ => 3) 3
      (fun p hp => by
        rcases List.mem_singleton.mp hp with rfl
        rfl)
      rfl⟩

theorem WF_after_three {F : Type} (s : SynthState F) (hwf : WF s)
    (c₁ c₂ c₃ : Cell) (v₁ v₂ v₃ : Value F)
    (h₁ : c₁.region = s.nextRegion) (h₂ : c₂.region = s.nextRegion)
    (h₃ : c₃.region = s.nextRegion)
    (cp : List (Cell × Cell)) (es : List (Nat × Nat × Nat))
    (ic : List (Cell × Nat)) :
    WF (SynthState.mk (s.nextRegion + 1)
      ((c₁, v₁) :: (c₂, v₂) :: (c₃, v₃) :: s.assignments) cp es ic) := by
  intro p hp
  simp only [List.mem_cons] at hp
  rcases hp with rfl | rfl | rfl | hp
  · show c₁.region < s.nextRegion + 1
    omega
  · show c₂.region < s.nextRegion + 1
    omega
  · show c₃.region < s.nextRegion + 1
    omega
  · exact Nat.lt_succ_of_lt (hwf p hp)

/-- C8: Value Handles are never mutated: running `mul` twice on the same
pair of handles yields results bound to distinct cells in distinct
regions that hold identical values, and the operands' recorded cell
assignments are unchanged by both calls. -/
theorem handles_immutable {F : Type} [Mul F]
    (a b : Number F) (s : SynthState F) (hwf : WF s)
    (ha : a.cell0.cell.col ∈ (arithCS F).eqEnabled)
    (hb : b.cell0.cell.col ∈ (arithCS F).eqEnabled)
    (haR : a.cell0.cell.region < s.nextRegion)
    (hbR : b.cell0.cell.region < s.nextRegion)
    (n₁ n₂ : Number F) (s₁ s₂ : SynthState F)
    (h₁ : ArithmeticChip.mul (arithCS F) (arithConfig F) a b s = .ok (n₁, s₁))
    (h₂ : ArithmeticChip.mul (arithCS F) (arithConfig F) a b s₁ = .ok (n₂, s₂)) :
    n₁.cell0.cell ≠ n₂.cell0.cell ∧
    n₁.cell0.cell.region ≠ n₂.cell0.cell.region ∧
    n₁.cell0.val = n₂.cell0.val ∧
    s₂.lookup a.cell0.cell = s.lookup a.cell0.cell ∧
    s₂.lookup b.cell0.cell = s.lookup b.cell0.cell := by
  simp only [ArithmeticChip.mul] at h₁ h₂
  rw [mul_shape (arithCS F) (arithConfig F).mul_config a b s hwf
    (colA_mem_arithCS F) (colB_mem_arithCS F) colA_ne_colB ha hb] at h₁
  injection h₁ with h₁'
  rw [Prod.mk.injEq] at h₁'
  obtain ⟨hn₁, hs₁⟩ := h₁'
  subst hn₁
  subst hs₁
  have hwf₁ := WF_after_three s hwf
    ⟨s.nextRegion, (arithConfig F).mul_config.a, 1⟩
    ⟨s.nextRegion, (arithConfig F).mul_config.b, 0⟩
    ⟨s.nextRegion, (arithConfig F).mul_config.a, 0⟩
    (Value.mul a.cell0.val b.cell0.val) b.cell0.val a.cell0.val rfl rfl rfl
    ((b.cell0.cell, ⟨s.nextRegion, (arithConfig F).mul_config.b, 0⟩) ::
      (a.cell0.cell, ⟨s.nextRegion, (arithConfig F).mul_config.a, 0⟩) :: s.copies)
    (((arithConfig F).mul_config.sel_mul, s.nextRegion, 0) :: s.enabledSel)
    s.instanceConstraints
  rw [mul_shape (arithCS F) (arithConfig F).mul_config a b _ hwf₁
    (colA_mem_arithCS F) (colB_mem_arithCS F) colA_ne_colB ha hb] at h₂
  injection h₂ with h₂'
  rw [Prod.mk.injEq] at h₂'
  obtain ⟨hn₂, hs₂⟩ := h₂'
  subst hn₂
  subst hs₂
  refine ⟨?_, ?_, rfl, ?_, ?_⟩
  · intro h
    have hr := congrArg Cell.region h
    simp only [] at hr
    omega
  · intro h
    simp only [] at h
    omega
  · show lookupA _ a.cell0.cell = lookupA s.assignments a.cell0.cell
    rw [lookupA_cons_lt _ _ _ (show a.cell0.cell.region < s.nextRegion + 1 by omega),
      lookupA_cons_lt _ _ _ (show a.cell0.cell.region < s.nextRegion + 1 by omega),
      lookupA_cons_lt _ _ _ (show a.cell0.cell.region < s.nextRegion + 1 by omega),
      lookupA_cons_lt _ _ _ haR, lookupA_cons_lt _ _ _ haR,
      lookupA_cons_lt _ _ _ haR]
  · show lookupA _ b.cell0.cell = lookupA s.assignments b.cell0.cell
    rw [lookupA_cons_lt _ _ _ (show b.cell0.cell.region < s.nextRegion + 1 by omega),
      lookupA_cons_lt _ _ _ (show b.cell0.cell.region < s.nextRegion + 1 by omega),
      lookupA_cons_lt _ _ _ (show b.cell0.cell.region < s.nextRegion + 1 by omega),
      lookupA_cons_lt _ _ _ hbR, lookupA_cons_lt _ _ _ hbR,
      lookupA_cons_lt _ _ _ hbR]

/-- Witness for C8: two sequential `mul` calls on the same pair of loaded
handles over `ZMod 5`. -/
theorem handles_immutable_witness :
    (ArithmeticChip.mul (arithCS (ZMod 5)) (arithConfig (ZMod 5)) exA exB exS =
        .ok (exN₁, exS₁) ∧
      ArithmeticChip.mul (arithCS (ZMod 5)) (arithConfig (ZMod 5)) exA exB exS₁ =
        .ok (exN₂, exS₂)) ∧
    (exN₁.cell0.cell ≠ exN₂.cell0.cell ∧
      exN₁.cell0.cell.region ≠ exN₂.cell0.cell.region ∧
      exN₁.cell0.val = exN₂.cell0.val ∧
      exS₂.lookup exA.cell0.cell = exS.lookup exA.cell0.cell ∧
      exS₂.lookup exB.cell0.cell = exS.lookup exB.cell0.cell) :=
  ⟨⟨rfl, rfl⟩,
    handles_immutable exA exB exS
      (by
        intro p hp
        simp only [exS, List.mem_cons, List.not_mem_nil, or_false] at hp
        rcases hp with rfl | rfl <;> decide)
      (by decide) (by decide) (by decide) (by decide)
      exN₁ exN₂ exS₁ exS₂ rfl rfl⟩

/-- C4: composing `add` then `mul` then `sub` on handles produced by
`load_private` yields a final `Number` whose held value equals the pure
field evaluation `(x + y) * z - w` of the same expression, for all field
values: circuit evaluation is a homomorphism onto field arithmetic for
this call sequence. -/
theorem seq_homomorphism :
    ∀ (F : Type) [Field F] (x y z w : F),
      resVal (runAddMulSub x y z w) = some (Value.known ((x + y) * z - w)) :=
  fun _ _ _ _ _ _ => rfl

/-- C9: every operation is fail-fast: the `Except`-valued result of each
call is exactly the error of the first failing internal step — the error
propagates unchanged, later steps do not run, and no default value is
substituted.  Shown for every fallible step of every operation: both
copies and the result assignment of `mul`, of `sub` and of the
spec-modelled `add`, the advice assignment of `load_private`, and the
instance constraint of `expose_public`. -/
theorem ops_fail_fast {F : Type} [Add F] [Sub F] [Mul F]
    (cs : ConstraintSystem F) (acfg : ArithmeticConfig)
    (a b num : Number F) (s : SynthState F) (v : Value F) (row : Nat) :
    (∀ e, SynthState.copyAdvice cs a.cell0
        { s with
            nextRegion := s.nextRegion + 1
            enabledSel := (acfg.mul_config.sel_mul, s.nextRegion, 0) :: s.enabledSel }
        acfg.mul_config.a s.nextRegion 0 = .error e →
      ArithmeticChip.mul cs acfg a b s = .error e) ∧
    (∀ ac₁ s₁, SynthState.copyAdvice cs a.cell0
        { s with
            nextRegion := s.nextRegion + 1
            enabledSel := (acfg.mul_config.sel_mul, s.nextRegion, 0) :: s.enabledSel }
        acfg.mul_config.a s.nextRegion 0 = .ok (ac₁, s₁) →
      ∀ e, SynthState.copyAdvice cs b.cell0 s₁ acfg.mul_config.b s.nextRegion 0 =
          .error e →
        ArithmeticChip.mul cs acfg a b s = .error e) ∧
    (∀ ac₁ s₁ ac₂ s₂, SynthState.copyAdvice cs a.cell0
        { s with
            nextRegion := s.nextRegion + 1
            enabledSel := (acfg.mul_config.sel_mul, s.nextRegion, 0) :: s.enabledSel }
        acfg.mul_config.a s.nextRegion 0 = .ok (ac₁, s₁) →
      SynthState.copyAdvice cs b.cell0 s₁ acfg.mul_config.b s.nextRegion 0 =
        .ok (ac₂, s₂) →
      ∀ e, SynthState.assignAdvice s₂ s.nextRegion acfg.mul_config.a 1
          (Value.mul a.cell0.val b.cell0.val) = .error e →
        ArithmeticChip.mul cs acfg a b s = .error e) ∧
    (∀ e, SynthState.copyAdvice cs a.cell0
        { s with
            nextRegion := s.nextRegion + 1
            enabledSel := (acfg.sub_config.sel_sub, s.nextRegion, 0) :: s.enabledSel }
        acfg.sub_config.a s.nextRegion 0 = .error e →
      ArithmeticChip.sub cs acfg a b s = .error e) ∧
    (∀ ac₁ s₁, SynthState.copyAdvice cs a.cell0
        { s with
            nextRegion := s.nextRegion + 1
            enabledSel := (acfg.sub_config.sel_sub, s.nextRegion, 0) :: s.enabledSel }
        acfg.sub_config.a s.nextRegion 0 = .ok (ac₁, s₁) →
      ∀ e, SynthState.copyAdvice cs b.cell0 s₁ acfg.sub_config.b s.nextRegion 0 =
          .error e →
        ArithmeticChip.sub cs acfg a b s = .error e) ∧
    (∀ ac₁ s₁ ac₂ s₂, SynthState.copyAdvice cs a.cell0
        { s with
            nextRegion := s.nextRegion + 1
            enabledSel := (acfg.sub_config.sel_sub, s.nextRegion, 0) :: s.enabledSel }
        acfg.sub_config.a s.nextRegion 0 = .ok (ac₁, s₁) →
      SynthState.copyAdvice cs b.cell0 s₁ acfg.sub_config.b s.nextRegion 0 =
        .ok (ac₂, s₂) →
      ∀ e, SynthState.assignAdvice s₂ s.nextRegion acfg.sub_config.a 1
          (Value.sub a.cell0.val b.cell0.val) = .error e →
        ArithmeticChip.sub cs acfg a b s = .error e) ∧
    (∀ e, SynthState.copyAdvice cs a.cell0
        { s with
            nextRegion := s.nextRegion + 1
            enabledSel := (acfg.add_config.sel_add, s.nextRegion, 0) :: s.enabledSel }
        acfg.add_config.a s.nextRegion 0 = .error e →
      ArithmeticChip.add cs acfg a b s = .error e) ∧
    (∀ ac₁ s₁, SynthState.copyAdvice cs a.cell0
        { s with
            nextRegion := s.nextRegion + 1
            enabledSel := (acfg.add_config.sel_add, s.nextRegion, 0) :: s.enabledSel }
        acfg.add_config.a s.nextRegion 0 = .ok (ac₁, s₁) →
      ∀ e, SynthState.copyAdvice cs b.cell0 s₁ acfg.add_config.b s.nextRegion 0 =
          .error e →
        ArithmeticChip.add cs acfg a b s = .error e) ∧
    (∀ ac₁ s₁ ac₂ s₂, SynthState.copyAdvice cs a.cell0
        { s with
            nextRegion := s.nextRegion + 1
            enabledSel := (acfg.add_config.sel_add, s.nextRegion, 0) :: s.enabledSel }
        acfg.add_config.a s.nextRegion 0 = .ok (ac₁, s₁) →
      SynthState.copyAdvice cs b.cell0 s₁ acfg.add_config.b s.nextRegion 0 =
        .ok (ac₂, s₂) →
      ∀ e, SynthState.assignAdvice s₂ s.nextRegion acfg.add_config.a 1
          (Value.add a.cell0.val b.cell0.val) = .error e →
        ArithmeticChip.add cs acfg a b s = .error e) ∧
    (∀ e, SynthState.assignAdvice { s with nextRegion := s.nextRegion + 1 }
        s.nextRegion acfg.a 0 v = .error e →
      ArithmeticChip.load_private acfg v s = .error e) ∧
    (∀ e, SynthState.constrainInstance cs s num.cell0.cell acfg.instCol row =
        .error e →
      ArithmeticChip.expose_public cs acfg num row s = .error e) := by
  refine ⟨?_, ?_, ?_, ?_, ?_, ?_, ?_, ?_, ?_, ?_, ?_⟩
  · intro e he
    simp only [ArithmeticChip.mul, MulChip.mul, enableSel_ok, he]
  · intro ac₁ s₁ h1 e he
    simp only [ArithmeticChip.mul, MulChip.mul, enableSel_ok, h1, he]
  · intro ac₁ s₁ ac₂ s₂ h1 h2 e he
    simp only [ArithmeticChip.mul, MulChip.mul, enableSel_ok, h1, h2, he]
  · intro e he
    simp only [ArithmeticChip.sub, SubChip.sub, enableSel_ok, he]
  · intro ac₁ s₁ h1 e he
    simp only [ArithmeticChip.sub, SubChip.sub, enableSel_ok, h1, he]
  · intro ac₁ s₁ ac₂ s₂ h1 h2 e he
    simp only [ArithmeticChip.sub, SubChip.sub, enableSel_ok, h1, h2, he]
  · intro e he
    simp only [ArithmeticChip.add, AddChip.add, enableSel_ok, he]
  · intro ac₁ s₁ h1 e he
    simp only [ArithmeticChip.add, AddChip.add, enableSel_ok, h1, he]
  · intro ac₁ s₁ ac₂ s₂ h1 h2 e he
    simp only [ArithmeticChip.add, AddChip.add, enableSel_ok, h1, h2, he]
  · intro e he
    simp only [ArithmeticChip.load_private, he]
  · intro e he
    simp only [ArithmeticChip.expose_public, he]

/-- Witness for C9: against a constraint system with no equality-enabled
columns, the first copy of `mul` fails and the whole call returns exactly
that error. -/
theorem ops_fail_fast_witness :
    (SynthState.copyAdvice (initCS (ZMod 5)) exA.cell0
        { exS with
            nextRegion := exS.nextRegion + 1
            enabledSel := ((arithConfig (ZMod 5)).mul_config.sel_mul,
              exS.nextRegion, 0) :: exS.enabledSel }
        (arithConfig (ZMod 5)).mul_config.a exS.nextRegion 0 =
      .error (.notEnabledEq ColId.colA)) ∧
    ArithmeticChip.mul (initCS (ZMod 5)) (arithConfig (ZMod 5)) exA exB exS =
      .error (.notEnabledEq ColId.colA) :=
  ⟨rfl,
    (ops_fail_fast (initCS (ZMod 5)) (arithConfig (ZMod 5)) exA exB exA exS
      (Value.known 0) 0).1 (.notEnabledEq ColId.colA) rfl⟩

/-- C10: the composition layer's single `configure` call gives the three
gates pairwise-distinct selectors (each chip allocates its own fresh
selector from the constraint system's counter) and registers the add, sub
and mul gates, in that order, against the shared columns; and whenever a
gate's selector evaluates to 0 at a row its polynomial vanishes there
regardless of the advice values, so enabling one operation's selector
enforces only that operation's identity. -/
theorem selectors_distinct {F : Type} [CommRing F] (cs : ConstraintSystem F)
    (a b ic : ColId) :
    ((ArithmeticChip.configure cs a b ic).1.add_config.sel_add ≠
        (ArithmeticChip.configure cs a b ic).1.sub_config.sel_sub ∧
      (ArithmeticChip.configure cs a b ic).1.add_config.sel_add ≠
        (ArithmeticChip.configure cs a b ic).1.mul_config.sel_mul ∧
      (ArithmeticChip.configure cs a b ic).1.sub_config.sel_sub ≠
        (ArithmeticChip.configure cs a b ic).1.mul_config.sel_mul) ∧
    (ArithmeticChip.configure cs a b ic).2.gates =
      cs.gates ++
        [⟨[AddChip.gatePoly a b (ArithmeticChip.configure cs a b ic).1.add_config.sel_add]⟩,
          ⟨[SubChip.gatePoly a b (ArithmeticChip.configure cs a b ic).1.sub_config.sel_sub]⟩,
          ⟨[MulChip.gatePoly a b (ArithmeticChip.configure cs a b ic).1.mul_config.sel_mul]⟩] ∧
    ∀ (sv : Nat → F) (av : ColId → Int → F),
      (sv (ArithmeticChip.configure cs a b ic).1.add_config.sel_add = 0 →
        (AddChip.gatePoly a b
          (ArithmeticChip.configure cs a b ic).1.add_config.sel_add).eval sv av = 0) ∧
      (sv (ArithmeticChip.configure cs a b ic).1.sub_config.sel_sub = 0 →
        (SubChip.gatePoly a b
          (ArithmeticChip.configure cs a b ic).1.sub_config.sel_sub).eval sv av = 0) ∧
      (sv (ArithmeticChip.configure cs a b ic).1.mul_config.sel_mul = 0 →
        (MulChip.gatePoly a b
          (ArithmeticChip.configure cs a b ic).1.mul_config.sel_mul).eval sv av = 0) := by
  refine ⟨⟨?_, ?_, ?_⟩, ?_, fun sv av => ⟨?_, ?_, ?_⟩⟩
  · show cs.numSelectors ≠ cs.numSelectors + 1
    omega
  · show cs.numSelectors ≠ cs.numSelectors + 1 + 1
    omega
  · show cs.numSelectors + 1 ≠ cs.numSelectors + 1 + 1
    omega
  · simp [ArithmeticChip.configure, AddChip.configure, SubChip.configure,
      MulChip.configure, ConstraintSystem.selector, ConstraintSystem.enableEquality,
      ConstraintSystem.createGate, List.append_assoc]
  · intro h
    simp only [AddChip.gatePoly, Expression.eval, h, zero_mul]
  · intro h
    simp only [SubChip.gatePoly, Expression.eval, h, zero_mul]
  · intro h
    simp only [MulChip.gatePoly, Expression.eval, h, zero_mul]

/-- Witness for C10: with all selector values 0, the addition gate's
polynomial evaluates to 0 whatever the advice values. -/
theorem selectors_distinct_witness :
    (fun _ : Nat => (0 : ZMod 5)) 0 = 0 ∧
    (AddChip.gatePoly ColId.colA ColId.colB 0).eval
      (fun _ => (0 : ZMod 5)) (fun _ _ => 1) = 0 :=
  ⟨rfl,
    ((selectors_distinct (initCS (ZMod 5)) ColId.colA ColId.colB
      ColId.instCol).2.2 (fun _ => 0) (fun _ _ => 1)).1 rfl⟩

end ZkCalc
